import Mathlib

/-! Verification of the idiomapi to-do data-access layer.

This file gives a shallow embedding of the repository operations
(Create, GetByID, List, Update, Delete) of `internal/repository`, the
dynamic UPDATE-statement builder, the pagination mapper of
`internal/dto/todo_mapper.go`, and the completed-filter parsing of
`internal/handler/todo_handler.go`, together with theorems settling the
specified properties of that layer.

The Entity Store (PostgreSQL `todos` table from
`migrations/001_create_todos_table.sql`) is modelled as a list of rows plus
the SERIAL sequence value; timestamps are modelled as naturals, and the
`update_todos_updated_at` trigger (refresh `updated_at` to NOW() before every
row UPDATE) is part of the store-level UPDATE semantics. -/

/-- Value bound to a positional SQL placeholder. -/
inductive SqlValue where
  | vStr (s : String)
  | vBool (b : Bool)
  | vInt (n : Int)
deriving Repr, DecidableEq

/-- Todo record: one row of the `todos` table (`internal/model/todo.go`). -/
structure Todo where
  id : Int
  title : String
  description : String
  completed : Bool
  createdAt : Nat
  updatedAt : Nat
deriving Repr, DecidableEq

namespace dto

/-- CreateTodoRequest: body of a create call; all fields present. -/
structure CreateTodoRequest where
  title : String
  description : String
  completed : Bool
deriving Repr, DecidableEq

/-- UpdateTodoRequest: every field is optional (a Go nil pointer is `none`),
so "not supplied" is distinguishable from "supplied as empty/false". -/
structure UpdateTodoRequest where
  title : Option String
  description : Option String
  completed : Option Bool
deriving Repr, DecidableEq

end dto

/-- Entity Store state: the rows of the `todos` table together with the next
value of the SERIAL `id` sequence (never reused, also after deletes). -/
structure Store where
  todos : List Todo
  nextId : Int
deriving Repr, DecidableEq

/-- Raw error coming back from the underlying pgx store call. `noRows` is
pgx.ErrNoRows, `canceled` is a context cancellation / timeout of the caller,
`connFailure` stands for any other infrastructure failure. -/
inductive PgError where
  | noRows
  | canceled
  | connFailure (msg : String)
deriving Repr, DecidableEq

/-- Error surfaced by the repository: either the ErrNotFound sentinel
(`var ErrNotFound = errors.New("todo not found")`) or a generic wrapped error
(`fmt.Errorf("...: %w", err)`) carrying the operation context and the cause. -/
inductive RepoError where
  | notFound
  | wrapped (op : String) (cause : PgError)
deriving Repr, DecidableEq

/-- Row lookup `SELECT ... FROM todos WHERE id = $1` (first matching row). -/
def findTodo (s : Store) (id : Int) : Option Todo :=
  s.todos.find? (fun t => t.id == id)

/-- joinStrings joins strings with a separator (repository helper). -/
def joinStrings (strs : List String) (sep : String) : String :=
  match strs with
  | [] => ""
  | s :: rest => rest.foldl (fun acc x => acc ++ sep ++ x) s

/-- Dynamic UPDATE clause construction from `TodoRepository.Update`: walks the
three optional fields in source order (title, description, completed), and for
each supplied field appends a `column = $argPosition` SET clause and the bound
value, incrementing the placeholder counter which starts at 1. Returns the SET
clauses, the bound arguments, and the final placeholder position (the one the
`WHERE id` clause uses). -/
def buildUpdate (req : dto.UpdateTodoRequest) : List String × List SqlValue × Nat :=
  let updates : List String := []
  let args : List SqlValue := []
  let argPosition : Nat := 1
  let step1 : List String × List SqlValue × Nat :=
    match req.title with
    | some v => (updates ++ ["title = $" ++ toString argPosition],
                 args ++ [SqlValue.vStr v], argPosition + 1)
    | none => (updates, args, argPosition)
  let step2 : List String × List SqlValue × Nat :=
    match req.description with
    | some v => (step1.1 ++ ["description = $" ++ toString step1.2.2],
                 step1.2.1 ++ [SqlValue.vStr v], step1.2.2 + 1)
    | none => step1
  match req.completed with
  | some v => (step2.1 ++ ["completed = $" ++ toString step2.2.2],
               step2.2.1 ++ [SqlValue.vBool v], step2.2.2 + 1)
  | none => step2

/-- Full UPDATE statement text and argument list for an update request: the
SET clauses are joined with ", ", the id is bound at the final placeholder
position, and the statement returns all six columns. -/
def updateQueryArgs (id : Int) (req : dto.UpdateTodoRequest) : String × List SqlValue :=
  let b := buildUpdate req
  ("UPDATE todos SET " ++ joinStrings b.1 ", " ++ " WHERE id = $" ++ toString b.2.2 ++
     " RETURNING id, title, description, completed, created_at, updated_at",
   b.2.1 ++ [SqlValue.vInt id])

/-- Supplied fields of an update request as (column, value) pairs, in the
order the builder appends them (title, description, completed). This is the
specification-side description the builder output is compared against. -/
def suppliedFields (req : dto.UpdateTodoRequest) : List (String × SqlValue) :=
  (match req.title with
   | some v => [("title", SqlValue.vStr v)]
   | none => []) ++
  (match req.description with
   | some v => [("description", SqlValue.vStr v)]
   | none => []) ++
  (match req.completed with
   | some v => [("completed", SqlValue.vBool v)]
   | none => [])

namespace TodoRepository

/-- Create: `INSERT INTO todos (title, description, completed)` returning all
columns; the store assigns the SERIAL id and sets both timestamps to NOW()
(column defaults of the migration). -/
def create (s : Store) (now : Nat) (req : dto.CreateTodoRequest) : Todo × Store :=
  let todo : Todo :=
    { id := s.nextId, title := req.title, description := req.description,
      completed := req.completed, createdAt := now, updatedAt := now }
  (todo, { todos := s.todos ++ [todo], nextId := s.nextId + 1 })

/-- GetByID: `SELECT ... WHERE id = $1`; pgx.ErrNoRows becomes ErrNotFound. -/
def getByID (s : Store) (id : Int) : Except RepoError Todo :=
  match findTodo s id with
  | some t => Except.ok t
  | none => Except.error RepoError.notFound

/-- Rows matching the optional completed filter: the WHERE clause shared by
the count query and the list query of `TodoRepository.List`. -/
def matchingRows (s : Store) (completed : Option Bool) : List Todo :=
  match completed with
  | some c => s.todos.filter (fun t => t.completed == c)
  | none => s.todos

/-- Ordering relation of the list query: `ORDER BY created_at DESC`. -/
def createdDesc (a b : Todo) : Prop := b.createdAt ≤ a.createdAt

instance : DecidableRel createdDesc := fun a b => Nat.decLe b.createdAt a.createdAt

instance : IsTotal Todo createdDesc := ⟨fun a b => le_total b.createdAt a.createdAt⟩

instance : IsTrans Todo createdDesc := ⟨fun _ _ _ hab hbc => le_trans hbc hab⟩

/-- Matching rows ordered by `created_at` descending. -/
def sortedMatching (s : Store) (completed : Option Bool) : List Todo :=
  List.insertionSort createdDesc (matchingRows s completed)

/-- List: normalizes page (`page < 1` coerced to 1) and pageSize (outside
[1, 100] coerced to 10), computes `offset = (page - 1) * pageSize`, counts the
matching rows, and returns them ordered by `created_at` descending with
`LIMIT pageSize OFFSET offset`, along with the total count. -/
def list (s : Store) (page pageSize : Int) (completed : Option Bool) :
    List Todo × Int :=
  let p := if page < 1 then 1 else page
  let ps := if pageSize < 1 ∨ pageSize > 100 then 10 else pageSize
  let offset := (p - 1) * ps
  (((sortedMatching s completed).drop offset.toNat).take ps.toNat,
   ((matchingRows s completed).length : Int))

/-- Row produced by executing the dynamically built UPDATE on an existing
row: the SET clauses assign exactly the supplied fields (omitted fields keep
their stored values), and the `update_todos_updated_at` trigger refreshes
`updated_at` to NOW() before the row is written. -/
def appliedUpdate (existing : Todo) (req : dto.UpdateTodoRequest) (now : Nat) : Todo :=
  { id := existing.id,
    title := req.title.getD existing.title,
    description := req.description.getD existing.description,
    completed := req.completed.getD existing.completed,
    createdAt := existing.createdAt,
    updatedAt := now }

/-- Update: looks the record up first (ErrNotFound before any write); with
zero supplied fields returns the existing row and performs no write; otherwise
executes the dynamically built UPDATE, replacing the row carrying the id with
the applied row, and returns the row the RETURNING clause yields. -/
def update (s : Store) (now : Nat) (id : Int) (req : dto.UpdateTodoRequest) :
    Except RepoError Todo × Store :=
  match findTodo s id with
  | none => (Except.error RepoError.notFound, s)
  | some existing =>
    if ((buildUpdate req).1).isEmpty then
      (Except.ok existing, s)
    else
      (Except.ok (appliedUpdate existing req now),
       { s with todos := s.todos.map fun t =>
          if t.id == id then appliedUpdate existing req now else t })

/-- Delete: `DELETE FROM todos WHERE id = $1`; ErrNotFound exactly when the
affected-row count is zero (no pre-read). -/
def delete (s : Store) (id : Int) : Except RepoError Unit × Store :=
  let remaining := s.todos.filter (fun t => t.id != id)
  if remaining.length == s.todos.length then
    (Except.error RepoError.notFound, s)
  else
    (Except.ok (), { s with todos := remaining })

/-- Error branch of GetByID (lines 70-75 of the repository source):
pgx.ErrNoRows becomes the ErrNotFound sentinel; every other store error,
including a context cancellation, is wrapped generically with the operation
context. -/
def classifyGetByIDError (e : PgError) : RepoError :=
  match e with
  | PgError.noRows => RepoError.notFound
  | e => RepoError.wrapped "failed to get todo" e

/-- Operation requests issued against the repository, used to reason about
all records ever created in a run. -/
inductive Op where
  | opCreate (now : Nat) (req : dto.CreateTodoRequest)
  | opGet (id : Int)
  | opList (page pageSize : Int) (completed : Option Bool)
  | opUpdate (now : Nat) (id : Int) (req : dto.UpdateTodoRequest)
  | opDelete (id : Int)

/-- Runs a sequence of operations against a store, returning the final store
and the ids of all records created along the way. -/
def run (s : Store) : List Op → Store × List Int
  | [] => (s, [])
  | Op.opCreate now req :: rest =>
    let c := create s now req
    let r := run c.2 rest
    (r.1, c.1.id :: r.2)
  | Op.opGet _ :: rest => run s rest
  | Op.opList _ _ _ :: rest => run s rest
  | Op.opUpdate now id req :: rest => run (update s now id req).2 rest
  | Op.opDelete id :: rest => run (delete s id).2 rest

end TodoRepository

/-- Total-pages computation of ToTodoListResponse (`todo_mapper.go`):
`(total + pageSize - 1) / pageSize` with Go truncated integer division,
coerced to 1 when the quotient is 0. -/
def toTodoListResponseTotalPages (total pageSize : Int) : Int :=
  let totalPages := Int.tdiv (total + pageSize - 1) pageSize
  if totalPages = 0 then 1 else totalPages

/-- Completed-filter extraction of the ListTodos handler
(`todo_handler.go` lines 93-97): a non-empty `completed` query parameter
yields a present filter whose value is the string equality with "true";
an absent or empty parameter yields no filter. -/
def listCompletedFilter (completedStr : String) : Option Bool :=
  if completedStr != "" then some (completedStr == "true") else none

/-- HTTP status the handler maps a repository error to: errors.Is ErrNotFound
gives 404 not_found, anything else 500 internal_error. -/
def handlerStatus (e : RepoError) : Nat :=
  match e with
  | RepoError.notFound => 404
  | RepoError.wrapped _ _ => 500

/-- Concrete rows and store used by the witnesses. -/
def todoA : Todo :=
  { id := 1, title := "Buy milk", description := "", completed := false,
    createdAt := 5, updatedAt := 5 }

/-- Second concrete row (created later, completed). -/
def todoB : Todo :=
  { id := 2, title := "Write report", description := "d", completed := true,
    createdAt := 7, updatedAt := 7 }

/-- Concrete two-row store used by the witnesses. -/
def storeAB : Store := { todos := [todoA, todoB], nextId := 3 }

/-- Helper: a record found under an id carries that id. -/
theorem findTodo_id_eq {s : Store} {id : Int} {t : Todo}
    (h : findTodo s id = some t) : t.id = id := by
  have h' : s.todos.find? (fun x => x.id == id) = some t := h
  have := List.find?_some h'
  simpa using this

/-- Helper: membership in a page slice gives membership in the full list. -/
theorem mem_take_drop {α : Type} {l : List α} {t : α} {m n : Nat}
    (h : t ∈ (l.drop m).take n) : t ∈ l :=
  ((List.take_sublist _ _).trans (List.drop_sublist _ _)).subset h

/-- Helper: unfolding of the List operation into slice and count. -/
theorem list_eq (s : Store) (page pageSize : Int) (f : Option Bool) :
    TodoRepository.list s page pageSize f =
      (((TodoRepository.sortedMatching s f).drop
          ((((if page < 1 then 1 else page) - 1) *
             (if pageSize < 1 ∨ pageSize > 100 then 10 else pageSize)).toNat)).take
         ((if pageSize < 1 ∨ pageSize > 100 then 10 else pageSize).toNat),
       ((TodoRepository.matchingRows s f).length : Int)) := rfl

/-- Helper: any record returned by a filtered List call has the filtered
completed value. -/
theorem mem_list_completed {s : Store} {page pageSize : Int} {c : Bool} {t : Todo}
    (h : t ∈ (TodoRepository.list s page pageSize (some c)).1) :
    t.completed = c := by
  rw [list_eq] at h
  have h1 : t ∈ TodoRepository.sortedMatching s (some c) := mem_take_drop h
  have h2 : t ∈ TodoRepository.matchingRows s (some c) :=
    (List.perm_insertionSort TodoRepository.createdDesc _).subset h1
  have h2' : t ∈ s.todos.filter (fun x => x.completed == c) := h2
  have h3 := (List.mem_filter.mp h2').2
  simpa using h3

/-- C2: for every existing record id, Update with zero supplied fields
returns the existing record and performs no write: the resulting store is
exactly the prior store, so every stored field, updated_at included, keeps
its prior value. -/
theorem update_zero_fields_noop (s : Store) (now : Nat) (id : Int) (t : Todo)
    (ht : findTodo s id = some t) :
    TodoRepository.update s now id (dto.UpdateTodoRequest.mk none none none) =
      (Except.ok t, s) := by
  simp [TodoRepository.update, ht, buildUpdate]

/-- Witness for C2 at a concrete two-row store. -/
theorem update_zero_fields_noop_witness :
    TodoRepository.update storeAB 9 1 (dto.UpdateTodoRequest.mk none none none) =
      (Except.ok todoA, storeAB) :=
  update_zero_fields_noop storeAB 9 1 todoA (by decide)

/-- C3: for every id not present in the store, GetByID, Update (with any
combination of supplied fields) and Delete each fail with NotFound, and
Update and Delete leave the store unchanged. -/
theorem missing_id_not_found (s : Store) (id : Int) (h : findTodo s id = none) :
    TodoRepository.getByID s id = Except.error RepoError.notFound ∧
    (∀ now req, TodoRepository.update s now id req =
      (Except.error RepoError.notFound, s)) ∧
    TodoRepository.delete s id = (Except.error RepoError.notFound, s) := by
  refine ⟨?_, ?_, ?_⟩
  · simp [TodoRepository.getByID, h]
  · intro now req
    simp [TodoRepository.update, h]
  · have hall : ∀ x ∈ s.todos, (x.id != id) = true := by
      intro x hx
      have hne := List.find?_eq_none.mp h x hx
      simpa [bne] using hne
    have hfil : s.todos.filter (fun t => t.id != id) = s.todos :=
      List.filter_eq_self.mpr hall
    simp [TodoRepository.delete, hfil]

/-- Witness for C3 at a concrete store and an absent id. -/
theorem missing_id_not_found_witness :
    TodoRepository.getByID storeAB 99 = Except.error RepoError.notFound ∧
    TodoRepository.update storeAB 9 99 (dto.UpdateTodoRequest.mk (some "X") none none) =
      (Except.error RepoError.notFound, storeAB) ∧
    TodoRepository.delete storeAB 99 = (Except.error RepoError.notFound, storeAB) := by
  have h := missing_id_not_found storeAB 99 (by decide)
  exact ⟨h.1, h.2.1 9 (dto.UpdateTodoRequest.mk (some "X") none none), h.2.2⟩

/-- C9 counterexample: a cancellation of the underlying store call surfaces as
the very same generic wrapped failure as an infrastructure failure — the
repository defines no cancellation-specific error kind, and the caller-visible
kind (handler status) of a cancelled call equals that of a connection
failure. -/
theorem cancellation_same_kind_as_infrastructure :
    TodoRepository.classifyGetByIDError PgError.canceled =
      RepoError.wrapped "failed to get todo" PgError.canceled ∧
    handlerStatus (TodoRepository.classifyGetByIDError PgError.canceled) =
      handlerStatus
        (TodoRepository.classifyGetByIDError (PgError.connFailure "connection refused")) :=
  ⟨rfl, rfl⟩

/-- C9 amended: every store error other than pgx.ErrNoRows — caller-initiated
cancellation included — is wrapped into the single generic failure with the
operation context; the cause stays inside the wrapped error, but the surfaced
kind is the generic one, which the handler maps to 500 like any
infrastructure failure. -/
theorem cancellation_wrapped_generic (e : PgError) (h : e ≠ PgError.noRows) :
    TodoRepository.classifyGetByIDError e = RepoError.wrapped "failed to get todo" e ∧
    handlerStatus (TodoRepository.classifyGetByIDError e) = 500 := by
  cases e with
  | noRows => exact absurd rfl h
  | canceled => exact ⟨rfl, rfl⟩
  | connFailure m => exact ⟨rfl, rfl⟩

/-- Witness for the amended C9 at the cancellation error. -/
theorem cancellation_wrapped_generic_witness :
    TodoRepository.classifyGetByIDError PgError.canceled =
      RepoError.wrapped "failed to get todo" PgError.canceled ∧
    handlerStatus (TodoRepository.classifyGetByIDError PgError.canceled) = 500 :=
  cancellation_wrapped_generic PgError.canceled (by decide)

/-- C10: every non-empty string supplied as the completed query parameter
yields a present filter whose boolean value is exactly the equality with
"true"; any other non-empty value is not rejected and makes List return only
records with completed = false. -/
theorem completed_filter_parsing (cs : String) (h : cs ≠ "") :
    listCompletedFilter cs = some (cs == "true") ∧
    (cs ≠ "true" → listCompletedFilter cs = some false) ∧
    (∀ s page pageSize t, cs ≠ "true" →
      t ∈ (TodoRepository.list s page pageSize (listCompletedFilter cs)).1 →
      t.completed = false) := by
  have h1 : listCompletedFilter cs = some (cs == "true") := by
    simp [listCompletedFilter, bne_iff_ne, h]
  have h2 : cs ≠ "true" → listCompletedFilter cs = some false := by
    intro hne
    rw [h1]
    simp [beq_eq_false_iff_ne, hne]
  refine ⟨h1, h2, ?_⟩
  intro s page pageSize t hne hmem
  rw [h2 hne] at hmem
  exact mem_list_completed hmem

/-- Witness for C10 at the string "banana". -/
theorem completed_filter_parsing_witness :
    listCompletedFilter "banana" = some ("banana" == "true") ∧
    listCompletedFilter "banana" = some false := by
  have h := completed_filter_parsing "banana" (by decide)
  exact ⟨h.1, h.2.1 (by decide)⟩

/-- C5: for every total 0 or more and pageSize 1 or more, the reported
total-pages value is the ceiling of total / pageSize, except that it is 1
when total is 0. -/
theorem totalPages_is_ceil (total pageSize : Int) (h0 : 0 ≤ total)
    (h1 : 1 ≤ pageSize) :
    toTodoListResponseTotalPages total pageSize =
      if total = 0 then 1 else ⌈((total : ℚ) / (pageSize : ℚ))⌉ := by
  by_cases htz : total = 0
  · subst htz
    have hz : Int.tdiv (pageSize - 1) pageSize = 0 := by
      rw [Int.tdiv_eq_ediv (by omega) (by omega)]
      exact Int.ediv_eq_zero_of_lt (by omega) (by omega)
    simp [toTodoListResponseTotalPages, hz]
  · have ht1 : 1 ≤ total := by omega
    have hps0 : 0 < pageSize := by omega
    have hnn : 0 ≤ total + pageSize - 1 := by omega
    have htd : Int.tdiv (total + pageSize - 1) pageSize =
        (total + pageSize - 1) / pageSize := Int.tdiv_eq_ediv hnn (by omega)
    have hre := Int.ediv_add_emod (total + pageSize - 1) pageSize
    have hr0 : 0 ≤ (total + pageSize - 1) % pageSize := Int.emod_nonneg _ (by omega)
    have hrlt : (total + pageSize - 1) % pageSize < pageSize :=
      Int.emod_lt_of_pos _ hps0
    set q := (total + pageSize - 1) / pageSize with hqdef
    have hq1 : 1 ≤ q := by
      by_contra hq'
      push_neg at hq'
      have hle : q ≤ 0 := by omega
      have hmul : pageSize * q ≤ 0 := mul_nonpos_iff.mpr (Or.inl ⟨by omega, hle⟩)
      linarith
    have hpsQ : (0 : ℚ) < (pageSize : ℚ) := by exact_mod_cast hps0
    rw [if_neg htz]
    simp only [toTodoListResponseTotalPages, htd]
    rw [if_neg (by omega)]
    symm
    rw [Int.ceil_eq_iff]
    constructor
    · rw [lt_div_iff₀ hpsQ]
      have hint : (q - 1) * pageSize < total := by nlinarith
      exact_mod_cast hint
    · rw [div_le_iff₀ hpsQ]
      have hint : total ≤ q * pageSize := by nlinarith
      exact_mod_cast hint

/-- Witness for C5 at total 10, pageSize 5 and at total 0, pageSize 7. -/
theorem totalPages_is_ceil_witness :
    (toTodoListResponseTotalPages 10 5 =
      if (10 : ℤ) = 0 then 1 else ⌈(((10 : ℤ) : ℚ) / ((5 : ℤ) : ℚ))⌉) ∧
    (toTodoListResponseTotalPages 0 7 =
      if (0 : ℤ) = 0 then 1 else ⌈(((0 : ℤ) : ℚ) / ((7 : ℤ) : ℚ))⌉) ∧
    toTodoListResponseTotalPages 10 5 = 2 ∧
    toTodoListResponseTotalPages 0 7 = 1 :=
  ⟨totalPages_is_ceil 10 5 (by norm_num) (by norm_num),
   totalPages_is_ceil 0 7 (by norm_num) (by norm_num),
   by decide, by decide⟩

/-- C4: List normalizes before querying: a page below 1 behaves as page 1, a
pageSize outside [1, 100] behaves as pageSize 10, the returned slice starts at
offset (page - 1) * pageSize computed from the normalized values, and in
particular List(page 0, pageSize 500, f) equals List(page 1, pageSize 10, f). -/
theorem list_normalizes (s : Store) (page pageSize : Int) (f : Option Bool) :
    TodoRepository.list s page pageSize f =
      TodoRepository.list s (if page < 1 then 1 else page)
        (if pageSize < 1 ∨ pageSize > 100 then 10 else pageSize) f ∧
    (TodoRepository.list s page pageSize f).1 =
      ((TodoRepository.sortedMatching s f).drop
          ((((if page < 1 then 1 else page) - 1) *
             (if pageSize < 1 ∨ pageSize > 100 then 10 else pageSize)).toNat)).take
        ((if pageSize < 1 ∨ pageSize > 100 then 10 else pageSize).toNat) ∧
    TodoRepository.list s 0 500 f = TodoRepository.list s 1 10 f := by
  have hp : (if (if page < 1 then 1 else page) < 1 then (1 : ℤ)
      else if page < 1 then 1 else page) = if page < 1 then 1 else page := by
    split_ifs <;> omega
  have hps : (if (if pageSize < 1 ∨ pageSize > 100 then 10 else pageSize) < 1 ∨
        (if pageSize < 1 ∨ pageSize > 100 then 10 else pageSize) > 100 then (10 : ℤ)
      else if pageSize < 1 ∨ pageSize > 100 then 10 else pageSize) =
      if pageSize < 1 ∨ pageSize > 100 then 10 else pageSize := by
    split_ifs <;> omega
  refine ⟨?_, ?_, ?_⟩
  · rw [list_eq, list_eq, hp, hps]
  · rw [list_eq]
  · rw [list_eq, list_eq]
    norm_num

/-- Helper: replacing the row that carries an id makes the lookup under that
id return the replacement, provided some row carried the id. -/
theorem find?_replace_self {l : List Todo} {id : Int} {u t : Todo}
    (hu : u.id = id) (ht : l.find? (fun x => x.id == id) = some t) :
    (l.map fun x => if x.id == id then u else x).find? (fun x => x.id == id) =
      some u := by
  induction l with
  | nil => simp at ht
  | cons a as ih =>
    by_cases ha : (a.id == id) = true
    · simp only [List.map_cons, if_pos ha]
      exact List.find?_cons_of_pos _ (by simp [hu])
    · rw [@List.find?_cons_of_neg _ (fun x => x.id == id) a as ha] at ht
      simp only [List.map_cons, if_neg ha]
      rw [@List.find?_cons_of_neg _ (fun x => x.id == id) a _ ha]
      exact ih ht

/-- Helper: replacing the row that carries an id leaves lookups under every
other id unchanged. -/
theorem find?_replace_other {l : List Todo} {id j : Int} {u : Todo}
    (hu : u.id = id) (hj : j ≠ id) :
    (l.map fun x => if x.id == id then u else x).find? (fun x => x.id == j) =
      l.find? (fun x => x.id == j) := by
  induction l with
  | nil => simp
  | cons a as ih =>
    by_cases ha : (a.id == id) = true
    · have haid : a.id = id := by simpa using ha
      have h1 : ¬((u.id == j) = true) := by
        simp only [beq_iff_eq, hu]
        exact Ne.symm hj
      have h2 : ¬((a.id == j) = true) := by
        simp only [beq_iff_eq, haid]
        exact Ne.symm hj
      simp only [List.map_cons, if_pos ha]
      rw [@List.find?_cons_of_neg _ (fun x => x.id == j) u _ h1,
        @List.find?_cons_of_neg _ (fun x => x.id == j) a as h2]
      exact ih
    · simp only [List.map_cons, if_neg ha]
      by_cases haj : (a.id == j) = true
      · rw [@List.find?_cons_of_pos _ (fun x => x.id == j) a _ haj,
          @List.find?_cons_of_pos _ (fun x => x.id == j) a as haj]
      · rw [@List.find?_cons_of_neg _ (fun x => x.id == j) a _ haj,
          @List.find?_cons_of_neg _ (fun x => x.id == j) a as haj]
        exact ih

/-- Helper: an update request with at least one supplied field produces a
non-empty SET clause list. -/
theorem buildUpdate_updates_ne_empty (req : dto.UpdateTodoRequest)
    (h : req ≠ dto.UpdateTodoRequest.mk none none none) :
    ((buildUpdate req).1).isEmpty = false := by
  obtain ⟨ot, od, oc⟩ := req
  cases ot <;> cases od <;> cases oc <;> simp_all [buildUpdate]

/-- C1: for every existing record id and every update request supplying at
least one field, Update applies exactly the supplied fields (omitted fields
keep their prior values) together with the trigger refresh of updated_at,
returns the resulting full record as persisted (a subsequent lookup under the
id returns exactly it), and touches no other record. -/
theorem update_applies_supplied_fields (s : Store) (now : Nat) (id : Int)
    (req : dto.UpdateTodoRequest) (t : Todo) (ht : findTodo s id = some t)
    (hne : req ≠ dto.UpdateTodoRequest.mk none none none) :
    ∃ r s', TodoRepository.update s now id req = (Except.ok r, s') ∧
      r.id = id ∧
      r.title = req.title.getD t.title ∧
      r.description = req.description.getD t.description ∧
      r.completed = req.completed.getD t.completed ∧
      r.createdAt = t.createdAt ∧
      r.updatedAt = now ∧
      findTodo s' id = some r ∧
      (∀ j, j ≠ id → findTodo s' j = findTodo s j) := by
  have htid : t.id = id := findTodo_id_eq ht
  have hb := buildUpdate_updates_ne_empty req hne
  refine ⟨TodoRepository.appliedUpdate t req now,
    { s with todos := s.todos.map fun x =>
        if x.id == id then TodoRepository.appliedUpdate t req now else x },
    ?_, htid, rfl, rfl, rfl, rfl, rfl, ?_, ?_⟩
  · simp only [TodoRepository.update, ht, hb, Bool.false_eq_true, if_false]
  · exact find?_replace_self htid ht
  · intro j hj
    exact find?_replace_other htid hj

/-- Witness for C1: updating only the completed field of a concrete record. -/
theorem update_applies_supplied_fields_witness :
    ∃ r s',
      TodoRepository.update storeAB 9 2 (dto.UpdateTodoRequest.mk none none (some false)) =
        (Except.ok r, s') ∧
      r.id = 2 ∧
      r.title = (dto.UpdateTodoRequest.mk none none (some false)).title.getD todoB.title ∧
      r.description =
        (dto.UpdateTodoRequest.mk none none (some false)).description.getD todoB.description ∧
      r.completed =
        (dto.UpdateTodoRequest.mk none none (some false)).completed.getD todoB.completed ∧
      r.createdAt = todoB.createdAt ∧
      r.updatedAt = 9 ∧
      findTodo s' 2 = some r ∧
      (∀ j, j ≠ 2 → findTodo s' j = findTodo storeAB j) :=
  update_applies_supplied_fields storeAB 9 2
    (dto.UpdateTodoRequest.mk none none (some false)) todoB (by decide) (by decide)

/-- C6: every List result is ordered by created_at descending, contains only
records matching the filter and drawn from the store, is the requested page
slice of the ordered matching sequence, and the reported total counts all
matching records in the store, applying only the filter and ignoring
pagination. -/
theorem list_order_filter_total (s : Store) (page pageSize : Int) (f : Option Bool) :
    ((TodoRepository.list s page pageSize f).1).Sorted TodoRepository.createdDesc ∧
    (∀ t ∈ (TodoRepository.list s page pageSize f).1, ∀ c, f = some c → t.completed = c) ∧
    (∀ t ∈ (TodoRepository.list s page pageSize f).1, t ∈ s.todos) ∧
    (TodoRepository.list s page pageSize f).2 =
      ((s.todos.filter fun t =>
        match f with
        | some c => t.completed == c
        | none => true).length : Int) := by
  have hsub : ((TodoRepository.list s page pageSize f).1).Sublist
      (TodoRepository.sortedMatching s f) :=
    (List.take_sublist _ _).trans (List.drop_sublist _ _)
  refine ⟨?_, ?_, ?_, ?_⟩
  · exact List.Pairwise.sublist hsub (List.sorted_insertionSort _ _)
  · intro t htm c hc
    subst hc
    exact mem_list_completed htm
  · intro t htm
    have h1 : t ∈ TodoRepository.sortedMatching s f := hsub.subset htm
    have h2 : t ∈ TodoRepository.matchingRows s f :=
      (List.perm_insertionSort TodoRepository.createdDesc _).subset h1
    cases f with
    | some c =>
      have h2' : t ∈ s.todos.filter (fun x => x.completed == c) := h2
      exact (List.mem_filter.mp h2').1
    | none => exact h2
  · cases f <;> simp [list_eq, TodoRepository.matchingRows, List.filter_true]

/-- Witness for C6 at a concrete store filtered on completed records. -/
theorem list_order_filter_total_witness :
    todoB.completed = true ∧
    (TodoRepository.list storeAB 1 10 (some true)).2 =
      ((storeAB.todos.filter fun t =>
        match (some true : Option Bool) with
        | some c => t.completed == c
        | none => true).length : Int) := by
  have h := list_order_filter_total storeAB 1 10 (some true)
  exact ⟨h.2.1 todoB (by decide) true rfl, h.2.2.2⟩

/-- C7: the dynamically built UPDATE statement assigns exactly the columns of
the supplied fields, numbers its placeholders consecutively from 1 in the
order the fields are appended, binds the id at the following position, and
its argument list has one entry per placeholder, each at the position its
placeholder names. -/
theorem update_query_positional (id : Int) (req : dto.UpdateTodoRequest) :
    (buildUpdate req).1 =
      (suppliedFields req).mapIdx (fun i cv => cv.1 ++ " = $" ++ toString (i + 1)) ∧
    (buildUpdate req).2.1 = (suppliedFields req).map Prod.snd ∧
    (buildUpdate req).2.2 = (suppliedFields req).length + 1 ∧
    (updateQueryArgs id req).2 =
      (suppliedFields req).map Prod.snd ++ [SqlValue.vInt id] ∧
    ((updateQueryArgs id req).2).length = (suppliedFields req).length + 1 ∧
    (updateQueryArgs id req).1 =
      "UPDATE todos SET " ++ joinStrings ((buildUpdate req).1) ", " ++
        " WHERE id = $" ++ toString ((suppliedFields req).length + 1) ++
        " RETURNING id, title, description, completed, created_at, updated_at" := by
  obtain ⟨ot, od, oc⟩ := req
  cases ot <;> cases od <;> cases oc <;>
    exact ⟨rfl, rfl, rfl, rfl, rfl, rfl⟩

/-- Helper: the first component of Create is the record with the current
sequence value as id and both timestamps set to creation time. -/
theorem create_fst (s : Store) (now : Nat) (req : dto.CreateTodoRequest) :
    (TodoRepository.create s now req).1 =
      { id := s.nextId, title := req.title, description := req.description,
        completed := req.completed, createdAt := now, updatedAt := now } := rfl

/-- Helper: Update never changes the id sequence value. -/
theorem update_nextId (s : Store) (now : Nat) (id : Int) (req : dto.UpdateTodoRequest) :
    ((TodoRepository.update s now id req).2).nextId = s.nextId := by
  unfold TodoRepository.update
  split
  · rfl
  · split <;> rfl

/-- Helper: Delete never changes the id sequence value. -/
theorem delete_nextId (s : Store) (id : Int) :
    ((TodoRepository.delete s id).2).nextId = s.nextId := by
  simp only [TodoRepository.delete]
  split <;> rfl

/-- Helper: run on a creation step conses the fresh id onto the remaining
created ids. -/
theorem run_create_eq (s : Store) (now : Nat) (req : dto.CreateTodoRequest)
    (rest : List TodoRepository.Op) :
    TodoRepository.run s (TodoRepository.Op.opCreate now req :: rest) =
      ((TodoRepository.run (TodoRepository.create s now req).2 rest).1,
       ((TodoRepository.create s now req).1).id ::
         (TodoRepository.run (TodoRepository.create s now req).2 rest).2) := rfl

/-- Helper: the ids handed out by a run are at least the starting sequence
value and strictly increasing in creation order. -/
theorem run_ids_sorted (ops : List TodoRepository.Op) : ∀ s : Store,
    (∀ x ∈ (TodoRepository.run s ops).2, s.nextId ≤ x) ∧
    ((TodoRepository.run s ops).2).Sorted (fun a b => a < b) := by
  induction ops with
  | nil =>
    intro s
    simp [TodoRepository.run, List.Sorted]
  | cons op rest ih =>
    intro s
    cases op with
    | opCreate now req =>
      obtain ⟨hb, hs⟩ := ih (TodoRepository.create s now req).2
      have hnext : ((TodoRepository.create s now req).2).nextId = s.nextId + 1 := rfl
      constructor
      · intro x hx
        rw [run_create_eq] at hx
        rcases List.mem_cons.mp hx with h1 | h1
        · rw [h1, create_fst]
        · have hge := hb x h1
          rw [hnext] at hge
          omega
      · rw [run_create_eq, List.sorted_cons]
        refine ⟨?_, hs⟩
        intro b hmem
        have hge := hb b hmem
        rw [hnext] at hge
        have hlt : s.nextId < b := by omega
        exact hlt
    | opGet i =>
      exact ih s
    | opList p ps c =>
      exact ih s
    | opUpdate now2 i req2 =>
      obtain ⟨hb, hs⟩ := ih (TodoRepository.update s now2 i req2).2
      have hn := update_nextId s now2 i req2
      refine ⟨?_, hs⟩
      intro x hx
      have hge := hb x hx
      rw [hn] at hge
      exact hge
    | opDelete i =>
      obtain ⟨hb, hs⟩ := ih (TodoRepository.delete s i).2
      have hn := delete_nextId s i
      refine ⟨?_, hs⟩
      intro x hx
      have hge := hb x hx
      rw [hn] at hge
      exact hge

/-- C8: Create returns the full persisted record — the store-assigned id is
the current sequence value, the record is appended to the store, and
created_at equals updated_at at creation — and across any run of operations
from the initial store the ids of all records ever created are pairwise
distinct. -/
theorem create_full_record_unique_ids :
    (∀ s now req, (TodoRepository.create s now req).1 =
      { id := s.nextId, title := req.title, description := req.description,
        completed := req.completed, createdAt := now, updatedAt := now }) ∧
    (∀ s now req, ((TodoRepository.create s now req).2).todos =
      s.todos ++ [(TodoRepository.create s now req).1]) ∧
    (∀ s now req, ((TodoRepository.create s now req).2).nextId = s.nextId + 1) ∧
    (∀ (s : Store) (now : Nat) (req : dto.CreateTodoRequest),
      ((TodoRepository.create s now req).1).createdAt =
        ((TodoRepository.create s now req).1).updatedAt) ∧
    (∀ ops : List TodoRepository.Op,
      ((TodoRepository.run { todos := [], nextId := 1 } ops).2).Nodup) := by
  refine ⟨fun s now req => rfl, fun s now req => rfl, fun s now req => rfl,
    fun s now req => rfl, ?_⟩
  intro ops
  exact ((run_ids_sorted ops { todos := [], nextId := 1 }).2).nodup
